import Mathlib

/-!
Verification of the wxMesh weewx MQTT driver (src/wxMesh.py).

The driver has four parts that the specification talks about:
  * a thread-safe FIFO payload queue (`queue.Queue`), filled by the
    `on_message` MQTT callback and drained by `genLoopPackets`;
  * JSON decoding of each raw payload (`json.loads`);
  * field mapping: `_get_as_float` plus the packet loop in
    `genLoopPackets` lines 141-146;
  * the generator cycle: drain the queue, yield one packet per decoded
    payload, then sleep for `poll_interval`.

We embed these as executable Lean functions.  Python floats are
modelled as rationals (`ℚ`); Python dicts as insertion-ordered
association lists with in-place update, matching CPython semantics.
Logging is modelled as an explicit list of the error-level log events
the code can emit (debug/info logs are not modelled).
-/

set_option autoImplicit false

namespace WxMesh

/-! ### Python dict model: insertion-ordered association lists -/

/-- Python `d.get(k)` / `d[k]`: first (and, for dicts built by `dictInsert`,
only) binding of key `s`. -/
def dictGet {V : Type} : List (String × V) → String → Option V
  | [], _ => Option.none
  | (k, v) :: rest, s => if k = s then some v else dictGet rest s

/-- Python `d.get(k, dflt)`. -/
def dictGetD {V : Type} (l : List (String × V)) (s : String) (dflt : V) : V :=
  (dictGet l s).getD dflt

/-- Assignment `d[k] = v` on a Python dict: update in place if the key exists
(keeping its position), otherwise append at the end. -/
def dictInsert {V : Type} : List (String × V) → String → V → List (String × V)
  | [], k, v => [(k, v)]
  | (k', v') :: rest, k, v =>
    if k' = k then (k, v) :: rest else (k', v') :: dictInsert rest k v

/-! ### JSON values and `json.loads` -/

/-- The values `json.loads` can produce. Finite numbers are modelled
as rationals; `nan` and `inf` are the non-finite floats produced by
the `NaN` / `Infinity` / `-Infinity` literals that `json.loads`
accepts by default (a documented extension beyond strict JSON). -/
inductive JValue : Type where
  | str (s : String)
  | num (q : ℚ)
  | bool (b : Bool)
  | null
  | nan
  | inf (neg : Bool)
  | arr (xs : List JValue)
  | obj (fields : List (String × JValue))

/-- Is the top-level JSON value a Python dict? -/
def JValue.isObj : JValue → Bool
  | .obj _ => true
  | _ => false

/-- JSON whitespace skipping. -/
def skipWs : List Char → List Char
  | [] => []
  | c :: cs =>
    if c = ' ' ∨ c = '\t' ∨ c = '\n' ∨ c = '\r' then skipWs cs else c :: cs

/-- Longest digit prefix and the rest. -/
def takeDigits : List Char → List Char × List Char
  | [] => ([], [])
  | c :: cs =>
    if c.isDigit then
      let (ds, rest) := takeDigits cs
      (c :: ds, rest)
    else ([], c :: cs)

/-- Digits to a natural number. -/
def digitsToNat (ds : List Char) : Nat :=
  ds.foldl (fun acc c => acc * 10 + (c.toNat - 48)) 0

/-- Assemble a decimal literal `[-]intPart[.fracPart][e[-]expDigits]`
into a rational: `±(intPart.fracPart) · 10^(±exp)`. -/
def mkDecimal (neg : Bool) (intPart fracPart : List Char)
    (expNeg : Bool) (expDigits : List Char) : ℚ :=
  let mantNat : Nat := digitsToNat (intPart ++ fracPart)
  let mant : Int := if neg then -(mantNat : Int) else (mantNat : Int)
  let e : Nat := digitsToNat expDigits
  if expNeg then mkRat mant (10 ^ (fracPart.length + e))
  else mkRat (mant * ((10 ^ e : Nat) : Int)) (10 ^ fracPart.length)

/-- Parse an optional exponent part (`e`/`E`, optional sign, digits).
Returns `(expNeg, expDigits, rest)`; `none` for a malformed exponent. -/
def parseExponent (cs : List Char) : Option (Bool × List Char × List Char) :=
  match cs with
  | 'e' :: r | 'E' :: r =>
    let (eneg, r1) :=
      match r with
      | '-' :: r2 => (true, r2)
      | '+' :: r2 => (false, r2)
      | _ => (false, r)
    match takeDigits r1 with
    | ([], _) => Option.none
    | (eds, r2) => some (eneg, eds, r2)
  | _ => some (false, [], cs)

/-- A JSON number token (strict JSON grammar: integer part required, no
leading zeros, fraction and exponent need at least one digit). -/
def parseJsonNumber (cs : List Char) : Option (ℚ × List Char) :=
  let neg : Bool := cs.headD ' ' = '-'
  let cs1 := if neg then cs.tail else cs
  match takeDigits cs1 with
  | ([], _) => Option.none
  | (intd, cs2) =>
    if intd.length > 1 ∧ intd.headD '0' = '0' then Option.none
    else
      let fracStep : Option (List Char × List Char) :=
        match cs2 with
        | '.' :: r =>
          match takeDigits r with
          | ([], _) => Option.none
          | (fds, r2) => some (fds, r2)
        | _ => some ([], cs2)
      match fracStep with
      | Option.none => Option.none
      | some (fracd, cs3) =>
        match parseExponent cs3 with
        | Option.none => Option.none
        | some (eneg, eds, cs4) =>
          some (mkDecimal neg intd fracd eneg eds, cs4)

/-- One hex digit. -/
def hexVal (c : Char) : Option Nat :=
  if c.isDigit then some (c.toNat - 48)
  else if 'a' ≤ c ∧ c ≤ 'f' then some (c.toNat - 87)
  else if 'A' ≤ c ∧ c ≤ 'F' then some (c.toNat - 55)
  else Option.none

/-- Single-character JSON escapes: `\"`, `\\` and `\/` stand for
themselves; `n`, `t`, `r`, `b`, `f` for the usual control characters. -/
def parseEscape (c : Char) : Option Char :=
  if c = '"' ∨ c = '\\' ∨ c = '/' then some c
  else if c = 'n' then some '\n'
  else if c = 't' then some '\t'
  else if c = 'r' then some '\r'
  else if c = 'b' then some (Char.ofNat 8)
  else if c = 'f' then some (Char.ofNat 12)
  else Option.none

/-- Body of a JSON string, after the opening quote; returns the decoded
characters and the input after the closing quote. A raw (unescaped)
control character (code below 0x20) is an error, as with `json.loads`'
default `strict=True`. -/
def parseJString : List Char → Option (List Char × List Char)
  | [] => Option.none
  | '"' :: rest => some ([], rest)
  | '\\' :: 'u' :: h1 :: h2 :: h3 :: h4 :: rest =>
    match hexVal h1, hexVal h2, hexVal h3, hexVal h4, parseJString rest with
    | some a, some b, some c, some d, some (s, r) =>
      some (Char.ofNat (((a * 16 + b) * 16 + c) * 16 + d) :: s, r)
    | _, _, _, _, _ => Option.none
  | '\\' :: c :: rest =>
    match parseEscape c, parseJString rest with
    | some c2, some (s, r) => some (c2 :: s, r)
    | _, _ => Option.none
  | c :: rest =>
    if c.toNat < 32 then Option.none
    else
      match parseJString rest with
      | some (s, r) => some (c :: s, r)
      | _ => Option.none

mutual

/-- One JSON value (recursive descent, fuel-bounded). -/
def parseValue : Nat → List Char → Option (JValue × List Char)
  | 0, _ => Option.none
  | fuel + 1, cs =>
    match skipWs cs with
    | '{' :: rest =>
      (match skipWs rest with
       | '}' :: r2 => some (.obj [], r2)
       | _ =>
         match parseMembers fuel [] rest with
         | some (fs, r2) => some (.obj fs, r2)
         | _ => Option.none)
    | '[' :: rest =>
      (match skipWs rest with
       | ']' :: r2 => some (.arr [], r2)
       | _ =>
         match parseItems fuel [] rest with
         | some (xs, r2) => some (.arr xs, r2)
         | _ => Option.none)
    | '"' :: rest =>
      (match parseJString rest with
       | some (s, r2) => some (.str (String.mk s), r2)
       | _ => Option.none)
    | 't' :: 'r' :: 'u' :: 'e' :: rest => some (.bool true, rest)
    | 'f' :: 'a' :: 'l' :: 's' :: 'e' :: rest => some (.bool false, rest)
    | 'n' :: 'u' :: 'l' :: 'l' :: rest => some (.null, rest)
    | 'N' :: 'a' :: 'N' :: rest => some (.nan, rest)
    | 'I' :: 'n' :: 'f' :: 'i' :: 'n' :: 'i' :: 't' :: 'y' :: rest =>
      some (.inf false, rest)
    | '-' :: 'I' :: 'n' :: 'f' :: 'i' :: 'n' :: 'i' :: 't' :: 'y' :: rest =>
      some (.inf true, rest)
    | cs1 =>
      match parseJsonNumber cs1 with
      | some (q, r2) => some (.num q, r2)
      | _ => Option.none
  termination_by structural fuel _ => fuel

/-- The members of a JSON object after `{`. Duplicate keys overwrite
earlier values, as `json.loads` does. -/
def parseMembers : Nat → List (String × JValue) → List Char →
    Option (List (String × JValue) × List Char)
  | 0, _, _ => Option.none
  | fuel + 1, acc, cs =>
    match skipWs cs with
    | '"' :: rest =>
      (match parseJString rest with
       | some (k, r1) =>
         (match skipWs r1 with
          | ':' :: r2 =>
            (match parseValue fuel r2 with
             | some (v, r3) =>
               let acc2 := dictInsert acc (String.mk k) v
               (match skipWs r3 with
                | ',' :: r4 => parseMembers fuel acc2 r4
                | '}' :: r4 => some (acc2, r4)
                | _ => Option.none)
             | _ => Option.none)
          | _ => Option.none)
       | _ => Option.none)
    | _ => Option.none
  termination_by structural fuel _ _ => fuel

/-- The items of a JSON array after `[`. -/
def parseItems : Nat → List JValue → List Char →
    Option (List JValue × List Char)
  | 0, _, _ => Option.none
  | fuel + 1, acc, cs =>
    match parseValue fuel cs with
    | some (v, r1) =>
      (match skipWs r1 with
       | ',' :: r2 => parseItems fuel (acc ++ [v]) r2
       | ']' :: r2 => some (acc ++ [v], r2)
       | _ => Option.none)
    | _ => Option.none
  termination_by structural fuel _ _ => fuel

end

/-- Model of `json.loads` on a raw payload: `some` decoded value, `none` models
the raised `JSONDecodeError`. Like CPython's default decoder it
accepts the `NaN`/`Infinity`/`-Infinity` extensions and rejects raw
control characters in strings (`strict=True`). -/
def jsonParse (s : String) : Option JValue :=
  let cs := s.toList
  match parseValue (cs.length + 1) cs with
  | some (v, rest) => if skipWs rest = [] then some v else Option.none
  | _ => Option.none

/-! ### Python `float()` on decoded JSON values -/

/-- A Python float value as `float()` can produce it: finite (an exact
rational in this model), `nan`, or a signed infinity. -/
inductive PyFloat : Type where
  | fin (q : ℚ)
  | nan
  | inf (neg : Bool)
  deriving DecidableEq

/-- Python whitespace, as stripped around `float()`'s string argument
(the ASCII part: space, tab, newline, carriage return, vertical tab,
form feed). -/
def skipPyWs : List Char → List Char
  | [] => []
  | c :: cs =>
    if c = ' ' ∨ c = '\t' ∨ c = '\n' ∨ c = '\r' ∨ c = '\x0b' ∨ c = '\x0c' then
      skipPyWs cs
    else c :: cs

/-- Longest digit prefix allowing PEP-515 single underscores between
digits (as `float()` accepts); underscores are dropped from the
result, and a trailing or doubled underscore is left in the rest (so
the caller's leftover-input check rejects it, as CPython does). -/
def takeDigitsU : List Char → List Char × List Char
  | [] => ([], [])
  | c :: '_' :: c2 :: cs2 =>
    if c.isDigit then
      if c2.isDigit then
        let (ds, rest) := takeDigitsU (c2 :: cs2)
        (c :: ds, rest)
      else ([c], '_' :: c2 :: cs2)
    else ([], c :: '_' :: c2 :: cs2)
  | c :: cs =>
    if c.isDigit then
      let (ds, rest) := takeDigitsU cs
      (c :: ds, rest)
    else ([], c :: cs)

/-- Does the input start with the given word and continue with nothing
but whitespace? -/
def wordThenWs (w cs : List Char) : Bool :=
  w.isPrefixOf cs && (skipPyWs (cs.drop w.length)).isEmpty

/-- The exponent part for `float()` strings: like `parseExponent` but
with underscore-grouped digits. -/
def parseExponentU (cs : List Char) : Option (Bool × List Char × List Char) :=
  match cs with
  | 'e' :: r | 'E' :: r =>
    let (eneg, r1) :=
      match r with
      | '-' :: r2 => (true, r2)
      | '+' :: r2 => (false, r2)
      | _ => (false, r)
    match takeDigitsU r1 with
    | ([], _) => Option.none
    | (eds, r2) => some (eneg, eds, r2)
  | _ => some (false, [], cs)

/-- Python `float(s)` on a string: optional surrounding whitespace and
sign, then either `nan` / `inf` / `infinity` (case-insensitive) or a
decimal literal needing at least one digit, with optional exponent and
PEP-515 underscores. Returns `none` where CPython raises
`ValueError`. -/
def parsePyFloat (s : String) : Option PyFloat :=
  let cs := skipPyWs s.toList
  let neg : Bool := cs.headD ' ' = '-'
  let cs1 := if neg ∨ cs.headD ' ' = '+' then cs.tail else cs
  let low := cs1.map Char.toLower
  if wordThenWs ['n', 'a', 'n'] low then some PyFloat.nan
  else if wordThenWs ['i', 'n', 'f', 'i', 'n', 'i', 't', 'y'] low then
    some (PyFloat.inf neg)
  else if wordThenWs ['i', 'n', 'f'] low then some (PyFloat.inf neg)
  else
    let (intd, cs2) := takeDigitsU cs1
    let (fracd, cs3) :=
      match cs2 with
      | '.' :: r => takeDigitsU r
      | _ => ([], cs2)
    if intd.isEmpty ∧ fracd.isEmpty then Option.none
    else
      match parseExponentU cs3 with
      | Option.none => Option.none
      | some (eneg, eds, cs4) =>
        if skipPyWs cs4 = [] then
          some (PyFloat.fin (mkDecimal neg intd fracd eneg eds))
        else Option.none

/-- The two exception classes `float(value)` can raise here. -/
inductive PyErr : Type where
  | valueError
  | typeError
  deriving DecidableEq

/-- Python `float(v)` on a decoded JSON value: strings parse or raise
`ValueError`; numbers (including the decoder's `NaN`/`Infinity`
floats, on which `float()` is the identity) and booleans convert;
`None`, lists and dicts raise `TypeError`. -/
def pyFloat : JValue → Except PyErr PyFloat
  | .str s =>
    match parsePyFloat s with
    | some v => .ok v
    | Option.none => .error .valueError
  | .num q => .ok (.fin q)
  | .bool b => .ok (.fin (if b then 1 else 0))
  | .nan => .ok .nan
  | .inf b => .ok (.inf b)
  | .null => .error .typeError
  | .arr _ => .error .typeError
  | .obj _ => .error .typeError

/-! ### Logging and `_get_as_float` -/

/-- The error-level log events the driver can emit. -/
inductive LogEvent : Type where
  /-- line 54: `log.error("cannot read value for '%s': ...")`. -/
  | conversionError (key : String)
  /-- line 134: `log.error("Failed loading JSON: ... msg %s ...")`,
  carrying the offending raw payload. -/
  | decodeError (raw : String)
  deriving DecidableEq

/-- Model of `_get_as_float(d, s)` (lines 48-57). Returns `None` when the key is
missing; on `ValueError` from `float()` it logs and returns `None`; any
other exception (e.g. `TypeError`) hits the buggy bare `except e:`
clause, which raises `NameError` (`e` is unbound) — modelled as
`.error ()`, an exception escaping the function. -/
def get_as_float (d : List (String × JValue)) (s : String) :
    Except Unit (Option PyFloat × List LogEvent) :=
  match dictGet d s with
  | Option.none => .ok (Option.none, [])
  | some v =>
    match pyFloat v with
    | .ok q => .ok (some q, [])
    | .error .valueError => .ok (Option.none, [LogEvent.conversionError s])
    | .error .typeError => .error ()

/-! ### The packet-mapping loop (lines 141-146) -/

/-- weewx's METRIC unit-system constant (`weewx.METRIC` = 0x10). -/
def METRIC : Int := 16

/-- Values a loop packet can hold: the `usUnits` int, floats from
`_get_as_float` (finite, nan, or infinite), or Python `None` when a
conversion failed. -/
inductive PacketValue : Type where
  | int (n : Int)
  | float (q : ℚ)
  | nan
  | inf (neg : Bool)
  | none
  deriving DecidableEq

/-- The packet loop, iterating over the (remaining) keys of `data`:
`for vname in data: if vname in self.label_map:
_packet[self.label_map.get(vname, vname)] = _get_as_float(data, str(vname))`.
An exception escaping `_get_as_float` aborts the whole loop
(`.error ()`). -/
def mapFieldsAux (data : List (String × JValue)) (lm : List (String × String)) :
    List String → List (String × PacketValue) → List LogEvent →
    Except Unit (List (String × PacketValue) × List LogEvent)
  | [], packet, logs => .ok (packet, logs)
  | vname :: todo, packet, logs =>
    if (dictGet lm vname).isSome then
      match get_as_float data vname with
      | .error () => .error ()
      | .ok (v, lgs) =>
        let pv :=
          match v with
          | some (PyFloat.fin q) => PacketValue.float q
          | some PyFloat.nan => PacketValue.nan
          | some (PyFloat.inf b) => PacketValue.inf b
          | Option.none => PacketValue.none
        mapFieldsAux data lm todo
          (dictInsert packet (dictGetD lm vname vname) pv) (logs ++ lgs)
    else mapFieldsAux data lm todo packet logs

/-- Lines 141-144: build `_packet` starting from
`{'usUnits': weewx.METRIC}` and map every key of `data` that occurs in
the label map. -/
def mapFields (data : List (String × JValue)) (lm : List (String × String)) :
    Except Unit (List (String × PacketValue) × List LogEvent) :=
  mapFieldsAux data lm (data.map Prod.fst) [("usUnits", PacketValue.int METRIC)] []

/-! ### Per-payload processing in `genLoopPackets` (lines 129-146) -/

/-- The fate of one drained payload. -/
inductive ProcResult : Type where
  /-- A packet was built and yielded. -/
  | yielded (packet : List (String × PacketValue)) (logs : List LogEvent)
  /-- Decoding failed: logged and skipped via `continue`. -/
  | skipped (logs : List LogEvent)
  /-- An uncaught exception escaped, terminating the generator. -/
  | crashed (logs : List LogEvent)
  deriving DecidableEq

/-- Process one drained payload string: `json.loads` inside
`try/except` (failure → log + `continue`); then, outside any handler,
`data['TIME'] = int(time.time())` — a `TypeError` crash when the
decoded value is not a dict; then the packet loop; then `yield`. -/
def processPayload (lm : List (String × String)) (now : Int) (msg : String) :
    ProcResult :=
  match jsonParse msg with
  | Option.none => .skipped [LogEvent.decodeError msg]
  | some v =>
    match v with
    | .obj fields =>
      let data := dictInsert fields "TIME" (JValue.num (now : ℚ))
      match mapFields data lm with
      | .error () => .crashed []
      | .ok (packet, logs) => .yielded packet logs
    | _ => .crashed []

/-- What one drain pass over a batch of payloads produces. -/
structure BatchResult : Type where
  records : List (List (String × PacketValue))
  logs : List LogEvent
  crashed : Bool
  deriving DecidableEq

/-- Run the inner `while not empty` loop over the drained payloads, in
order; an uncaught exception stops the batch (and the generator). -/
def runPayloads (lm : List (String × String)) (now : Int) :
    List String → BatchResult
  | [] => { records := [], logs := [], crashed := false }
  | msg :: rest =>
    match processPayload lm now msg with
    | .yielded p lgs =>
      let b := runPayloads lm now rest
      { records := p :: b.records, logs := lgs ++ b.logs, crashed := b.crashed }
    | .skipped lgs =>
      let b := runPayloads lm now rest
      { records := b.records, logs := lgs ++ b.logs, crashed := b.crashed }
    | .crashed lgs => { records := [], logs := lgs, crashed := true }

/-! ### Configuration (`__init__`, lines 65-76) -/

/-- The driver options after `__init__` has applied its defaults. -/
structure Config : Type where
  host : String
  topic : String
  username : String
  password : String
  client_id : String
  poll_interval : ℚ
  label_map : List (String × String)
  deriving DecidableEq

/-- The configuration bundle `stn_dict` passed to `__init__`: each
recognized option either present or absent. -/
structure StnDict : Type where
  host : Option String := Option.none
  topic : Option String := Option.none
  username : Option String := Option.none
  password : Option String := Option.none
  client : Option String := Option.none
  poll_interval : Option ℚ := Option.none
  label_map : Option (List (String × String)) := Option.none

/-- Lines 65-76 of `__init__`: `stn_dict.get(key, default)` for every
option (`float()` applied to the poll interval is the identity in the
rational model). -/
def wxMeshInit (d : StnDict) : Config where
  host := d.host.getD "localhost"
  topic := d.topic.getD "weather"
  username := d.username.getD "no default"
  password := d.password.getD "no default"
  client_id := d.client.getD "wxclient"
  poll_interval := d.poll_interval.getD 5
  label_map := d.label_map.getD []

/-! ### One generator cycle (lines 124-149) -/

/-- One cycle of `genLoopPackets`: drain the queue, process each
payload, then `time.sleep(self.poll_interval)` — unless an uncaught
exception terminated the generator first (`sleptFor = none`). -/
structure CycleResult : Type where
  records : List (List (String × PacketValue))
  logs : List LogEvent
  sleptFor : Option ℚ
  crashed : Bool
  deriving DecidableEq

/-- Run one cycle on the payloads found in the queue at its start. -/
def runCycle (cfg : Config) (now : Int) (queued : List String) : CycleResult :=
  let b := runPayloads cfg.label_map now queued
  { records := b.records
    logs := b.logs
    sleptFor := if b.crashed then Option.none else some cfg.poll_interval
    crashed := b.crashed }

/-! ### The payload queue (`queue.Queue`: `on_message` line 116 puts,
`genLoopPackets` lines 128-129 drains) -/

/-- The operations the two threads perform on the queue: the MQTT
callback enqueues one decoded payload; the generator drains everything
currently queued. -/
inductive QOp (α : Type) : Type where
  | enq (a : α)
  | drain

/-- Run a sequence of queue operations starting from queue contents
`q`; returns the list of drain results and the final queue contents. -/
def runQueueOps {α : Type} : List (QOp α) → List α → List (List α) × List α
  | [], q => ([], q)
  | QOp.enq a :: ops, q => runQueueOps ops (q ++ [a])
  | QOp.drain :: ops, q =>
    (q :: (runQueueOps ops []).1, (runQueueOps ops []).2)

/-- All payloads enqueued by a sequence of operations, in order. -/
def enqueuedOf {α : Type} (ops : List (QOp α)) : List α :=
  ops.filterMap fun op =>
    match op with
    | QOp.enq a => some a
    | QOp.drain => Option.none

/-- Concatenation of all drain results, in order. -/
def concatAll {α : Type} (ls : List (List α)) : List α :=
  ls.foldr (fun l r => l ++ r) []

/-! ### Payload safety: the values `float()` handles without the
`except e:` bug firing -/

/-- Does the payload decode to valid JSON whose top-level value is not
an object? (The case line 136 cannot survive.) -/
def decodesNonObj (msg : String) : Bool :=
  match jsonParse msg with
  | some v => !v.isObj
  | Option.none => false

lemma dictGet_dictInsert_self {V : Type} (l : List (String × V)) (k : String) (v : V) :
    dictGet (dictInsert l k v) k = some v := by
  induction l with
  | nil => simp [dictInsert, dictGet]
  | cons hd tl ih =>
    obtain ⟨k', v'⟩ := hd
    by_cases h : k' = k
    · subst h
      simp [dictInsert, dictGet]
    · simp [dictInsert, dictGet, h, ih]

lemma dictGet_dictInsert_ne {V : Type} (l : List (String × V)) (k s : String) (v : V)
    (h : k ≠ s) : dictGet (dictInsert l k v) s = dictGet l s := by
  induction l with
  | nil => simp [dictInsert, dictGet, h]
  | cons hd tl ih =>
    obtain ⟨k', v'⟩ := hd
    by_cases hk : k' = k
    · subst hk
      simp [dictInsert, dictGet, h]
    · simp [dictInsert, dictGet, hk, ih]

lemma dictGet_mem {V : Type} (l : List (String × V)) (k : String) (v : V)
    (h : dictGet l k = some v) : (k, v) ∈ l := by
  induction l with
  | nil => simp [dictGet] at h
  | cons hd tl ih =>
    obtain ⟨k', v'⟩ := hd
    by_cases hk : k' = k
    · subst hk
      simp [dictGet] at h
      simp [h]
    · simp [dictGet, hk] at h
      exact List.mem_cons_of_mem _ (ih h)

lemma map_fst_dictInsert {V : Type} (l : List (String × V)) (k : String) (v w : V) :
    (dictInsert l k v).map Prod.fst = (dictInsert l k w).map Prod.fst := by
  induction l with
  | nil => simp [dictInsert]
  | cons hd tl ih =>
    obtain ⟨k', v'⟩ := hd
    by_cases hk : k' = k
    · subst hk
      simp [dictInsert]
    · simp [dictInsert, hk, ih]

lemma dictGet_mem_targets {V : Type} (lm : List (String × V)) (k : String) (t : V)
    (h : dictGet lm k = some t) : t ∈ lm.map Prod.snd := by
  exact List.mem_map.mpr ⟨(k, t), dictGet_mem lm k t h, rfl⟩

/-! ## Helper lemmas about the queue model -/

lemma runQueueOps_spec {α : Type} (ops : List (QOp α)) (q : List α) :
    concatAll (runQueueOps ops q).1 ++ (runQueueOps ops q).2 = q ++ enqueuedOf ops := by
  induction ops generalizing q with
  | nil => simp [runQueueOps, concatAll, enqueuedOf]
  | cons op ops ih =>
    cases op with
    | enq a =>
      simp only [runQueueOps, enqueuedOf, List.filterMap_cons]
      rw [ih (q ++ [a])]
      simp [enqueuedOf]
    | drain =>
      have h2 := ih []
      simp only [List.nil_append] at h2
      simp only [runQueueOps, concatAll, List.foldr_cons] at h2 ⊢
      rw [List.append_assoc, h2]
      simp [enqueuedOf]

/-! ## Claim theorems -/

/-- Claim C8: with the queue empty at cycle start, the drain loop exits
immediately (an empty drain result, no blocking in the model), the
generator yields zero records in the cycle, and it sleeps for the
configured poll interval before the next cycle. -/
theorem c8_idle_cycle (cfg : Config) (now : Int) :
    runCycle cfg now [] =
      { records := [], logs := [], sleptFor := some cfg.poll_interval,
        crashed := false } ∧
    runQueueOps [QOp.drain] ([] : List String) = ([[]], []) := by
  exact ⟨rfl, rfl⟩

/-- Claim C6: over any sequence of enqueues interleaved with drains,
the concatenation of all drain results followed by what is still
queued equals exactly the sequence of enqueued payloads, in arrival
order — every payload is delivered to exactly one drain (FIFO, no
duplication, no loss while the process is alive). -/
theorem c6_queue_fifo (α : Type) (ops : List (QOp α)) :
    concatAll (runQueueOps ops []).1 ++ (runQueueOps ops []).2 = enqueuedOf ops := by
  have := runQueueOps_spec ops []
  simpa using this

/-- Claim C5 counterexample: the payload `NaN` is not syntactically
valid JSON (RFC 8259 has no such literal), yet `json.loads` accepts it
by default, so the generator does NOT log a decode error and continue:
it decodes `float('nan')` and crashes at the `data['TIME']` assignment
— nothing is logged, zero payloads are discarded gracefully, and the
next queued payload is never processed. -/
theorem c5_counterexample :
    processPayload [("temp", "outTemp")] 1000 "NaN" = ProcResult.crashed [] ∧
    runPayloads [("temp", "outTemp")] 1000 ["NaN", "\x7b\x7d"] =
      { records := [], logs := [], crashed := true } := by
  decide

/-- Claim C5 as amended: for every queued payload that `json.loads`
rejects — note `json.loads` accepts the non-standard
`NaN`/`Infinity`/`-Infinity` extensions by default, so those payloads
are outside this set despite not being strict JSON — the generator
logs a decode error together with the raw content, contributes zero
records, and goes on with the rest of the batch. -/
theorem c5_decode_failure_contained (lm : List (String × String)) (now : Int)
    (msg : String) (rest : List String) (h : (jsonParse msg).isNone = true) :
    processPayload lm now msg = ProcResult.skipped [LogEvent.decodeError msg] ∧
    runPayloads lm now (msg :: rest) =
      { records := (runPayloads lm now rest).records
        logs := LogEvent.decodeError msg :: (runPayloads lm now rest).logs
        crashed := (runPayloads lm now rest).crashed } := by
  have h0 : jsonParse msg = Option.none := Option.isNone_iff_eq_none.mp h
  have h1 : processPayload lm now msg = ProcResult.skipped [LogEvent.decodeError msg] := by
    unfold processPayload
    rw [h0]
  refine ⟨h1, ?_⟩
  simp [runPayloads, h1]

/-- Claim C5 witness: the truncated payload `{"temp":` is skipped with
a decode-error log and the following payload is still processed. -/
theorem c5_witness :
    processPayload [("temp", "outTemp")] 1000 "\x7b\"temp\":" =
      ProcResult.skipped [LogEvent.decodeError "\x7b\"temp\":"] ∧
    runPayloads [("temp", "outTemp")] 1000 ["\x7b\"temp\":", "\x7b\x7d"] =
      { records :=
          (runPayloads [("temp", "outTemp")] 1000 ["\x7b\x7d"]).records
        logs := LogEvent.decodeError "\x7b\"temp\":" ::
          (runPayloads [("temp", "outTemp")] 1000 ["\x7b\x7d"]).logs
        crashed :=
          (runPayloads [("temp", "outTemp")] 1000 ["\x7b\x7d"]).crashed } :=
  c5_decode_failure_contained [("temp", "outTemp")] 1000 "\x7b\"temp\":"
    ["\x7b\x7d"] (by decide)

/-- Claim C9: a payload that decodes to a non-object JSON value
(array, number, string, boolean, null, or the `NaN`/`Infinity` floats
the decoder accepts by default) reaches the `data['TIME'] = ...`
assignment outside the decode `try/except`; the `TypeError` is
uncaught, so the generator crashes without a log, without processing
the rest of the batch, and never reaches the sleep. -/
theorem c9_nonobject_crash (cfg : Config) (now : Int) (msg : String)
    (rest : List String) (h : decodesNonObj msg = true) :
    processPayload cfg.label_map now msg = ProcResult.crashed [] ∧
    runCycle cfg now (msg :: rest) =
      { records := [], logs := [], sleptFor := Option.none, crashed := true } := by
  have hp : processPayload cfg.label_map now msg = ProcResult.crashed [] := by
    unfold decodesNonObj at h
    unfold processPayload
    cases hj : jsonParse msg with
    | none => rw [hj] at h; simp at h
    | some v =>
      rw [hj] at h
      cases v with
      | obj fields => simp [JValue.isObj] at h
      | str s => rfl
      | num q => rfl
      | bool b => rfl
      | null => rfl
      | nan => rfl
      | inf b => rfl
      | arr xs => rfl
  refine ⟨hp, ?_⟩
  simp only [runCycle, runPayloads, hp]
  rfl

/-- Claim C9 witness: the valid-JSON payload `[1]` crashes the
generator even though a well-formed payload is queued right behind
it. -/
theorem c9_witness :
    processPayload
      (Config.label_map
        ⟨"localhost", "weather", "no default", "no default", "wxclient", 5,
          [("temp", "outTemp")]⟩) 1000 "[1]" = ProcResult.crashed [] ∧
    runCycle
      ⟨"localhost", "weather", "no default", "no default", "wxclient", 5,
        [("temp", "outTemp")]⟩ 1000 ["[1]", "\x7b\"temp\":\"21.5\"\x7d"] =
      { records := [], logs := [], sleptFor := Option.none, crashed := true } :=
  c9_nonobject_crash
    ⟨"localhost", "weather", "no default", "no default", "wxclient", 5,
      [("temp", "outTemp")]⟩ 1000 "[1]"
    ["\x7b\"temp\":\"21.5\"\x7d"] (by decide)

/-- Claim C4 counterexample: for the spec's end-to-end example (label
map `temp → outTemp`, `humi → outHumidity`, payload
`{"temp":"21.5","humi":"55","extra":"x"}`), exactly one record is
yielded and `extra` is absent, but the record is
`{usUnits, outTemp, outHumidity}` with NO time field — neither a
`time`/`dateTime` key nor any value equal to the mapping time 1000 —
because `TIME` is not in the label map. The claim's record
`{outTemp, outHumidity, usUnits, time}` is therefore not produced. -/
theorem c4_counterexample :
    runCycle
      ⟨"localhost", "weather", "no default", "no default", "wxclient", 5,
        [("temp", "outTemp"), ("humi", "outHumidity")]⟩ 1000
      ["\x7b\"temp\":\"21.5\",\"humi\":\"55\",\"extra\":\"x\"\x7d"] =
      { records :=
          [[("usUnits", PacketValue.int METRIC),
            ("outTemp", PacketValue.float (mkRat 43 2)),
            ("outHumidity", PacketValue.float (mkRat 55 1))]]
        logs := [], sleptFor := some 5, crashed := false } ∧
    dictGet
      [("usUnits", PacketValue.int METRIC),
        ("outTemp", PacketValue.float (mkRat 43 2)),
        ("outHumidity", PacketValue.float (mkRat 55 1))] "time" = Option.none ∧
    dictGet
      [("usUnits", PacketValue.int METRIC),
        ("outTemp", PacketValue.float (mkRat 43 2)),
        ("outHumidity", PacketValue.float (mkRat 55 1))] "dateTime" = Option.none ∧
    (∀ kv ∈
      [("usUnits", PacketValue.int METRIC),
        ("outTemp", PacketValue.float (mkRat 43 2)),
        ("outHumidity", PacketValue.float (mkRat 55 1))],
      kv.2 ≠ PacketValue.int 1000 ∧ kv.2 ≠ PacketValue.float 1000) := by
  decide

/-- Claim C4 as amended: with label map
`{temp: outTemp, humi: outHumidity}` and queued payload
`{"temp":"21.5","humi":"55","extra":"x"}`, the generator yields exactly
one record `{usUnits: METRIC, outTemp: 21.5, outHumidity: 55.0}`, with
`extra` absent and with no timestamp field (the local time written into
`data['TIME']` reaches the record only when `TIME` is a label-map
key). -/
theorem c4_amended :
    runCycle
      ⟨"localhost", "weather", "no default", "no default", "wxclient", 5,
        [("temp", "outTemp"), ("humi", "outHumidity")]⟩ 1000
      ["\x7b\"temp\":\"21.5\",\"humi\":\"55\",\"extra\":\"x\"\x7d"] =
      { records :=
          [[("usUnits", PacketValue.int METRIC),
            ("outTemp", PacketValue.float (mkRat 43 2)),
            ("outHumidity", PacketValue.float (mkRat 55 1))]]
        logs := [], sleptFor := some 5, crashed := false } ∧
    dictGet
      [("usUnits", PacketValue.int METRIC),
        ("outTemp", PacketValue.float (mkRat 43 2)),
        ("outHumidity", PacketValue.float (mkRat 55 1))] "extra" = Option.none ∧
    [("usUnits", PacketValue.int METRIC),
      ("outTemp", PacketValue.float (mkRat 43 2)),
      ("outHumidity", PacketValue.float (mkRat 55 1))].map Prod.fst =
      ["usUnits", "outTemp", "outHumidity"] := by
  decide

lemma dictGetD_eq (lm : List (String × String)) (k t : String)
    (h : dictGet lm k = some t) : dictGetD lm k k = t := by
  unfold dictGetD
  rw [h]
  rfl

lemma mapFieldsAux_usUnits (data : List (String × JValue))
    (lm : List (String × String)) (todo : List String) :
    ∀ (packet : List (String × PacketValue)) (logs : List LogEvent)
      (p : List (String × PacketValue)) (l : List LogEvent),
      dictGet packet "usUnits" = some (PacketValue.int METRIC) →
      "usUnits" ∉ lm.map Prod.snd →
      mapFieldsAux data lm todo packet logs = Except.ok (p, l) →
      dictGet p "usUnits" = some (PacketValue.int METRIC) := by
  induction todo with
  | nil =>
    intro packet logs p l hpk _h hok
    simp only [mapFieldsAux, Except.ok.injEq, Prod.mk.injEq] at hok
    rw [← hok.1]
    exact hpk
  | cons vn todo ih =>
    intro packet logs p l hpk h hok
    simp only [mapFieldsAux] at hok
    by_cases hv : (dictGet lm vn).isSome
    · rw [if_pos hv] at hok
      cases hga : get_as_float data vn with
      | error u =>
        cases u
        rw [hga] at hok
        simp at hok
      | ok x =>
        obtain ⟨v, lgs⟩ := x
        rw [hga] at hok
        simp only at hok
        obtain ⟨t, ht⟩ := Option.isSome_iff_exists.mp hv
        have htt : t ∈ lm.map Prod.snd := dictGet_mem_targets lm vn t ht
        have hne : dictGetD lm vn vn ≠ "usUnits" := by
          rw [dictGetD_eq lm vn t ht]
          intro contra
          subst contra
          exact h htt
        refine ih _ _ p l ?_ h hok
        rw [dictGet_dictInsert_ne _ _ _ _ hne]
        exact hpk
    · rw [if_neg hv] at hok
      exact ih _ _ p l hpk h hok

/-- Claim C7 counterexample: with a label map whose target is
`usUnits` itself (`{u: usUnits}`) and payload `{"u":"x"}`, line 144
overwrites the tag set on line 141: the yielded record's `usUnits`
is `None`, not METRIC. -/
theorem c7_counterexample :
    processPayload [("u", "usUnits")] 1000 "\x7b\"u\":\"x\"\x7d" =
      ProcResult.yielded [("usUnits", PacketValue.none)]
        [LogEvent.conversionError "u"] ∧
    dictGet [("usUnits", PacketValue.none)] "usUnits" ≠
      some (PacketValue.int METRIC) := by
  decide

/-- Claim C7 as amended: every record the mapping step produces
contains the key `usUnits`, initialised to `weewx.METRIC` on line 141;
it still holds METRIC whenever the label map does not name `usUnits`
as a target (otherwise the unconditional assignment on line 144 can
overwrite it). -/
theorem c7_amended (data : List (String × JValue)) (lm : List (String × String))
    (h : "usUnits" ∉ lm.map Prod.snd)
    (p : List (String × PacketValue)) (l : List LogEvent)
    (hok : mapFields data lm = Except.ok (p, l)) :
    dictGet p "usUnits" = some (PacketValue.int METRIC) :=
  mapFieldsAux_usUnits data lm (data.map Prod.fst)
    [("usUnits", PacketValue.int METRIC)] [] p l (by simp [dictGet]) h hok

/-- Claim C7 witness: the amended statement on a mapped, successfully
converted one-field message. -/
theorem c7_witness :
    dictGet
      [("usUnits", PacketValue.int METRIC),
        ("outTemp", PacketValue.float (mkRat 43 2))] "usUnits" =
      some (PacketValue.int METRIC) :=
  c7_amended [("temp", JValue.str "21.5")] [("temp", "outTemp")] (by decide)
    [("usUnits", PacketValue.int METRIC),
      ("outTemp", PacketValue.float (mkRat 43 2))] [] rfl

lemma get_as_float_congr (data d2 : List (String × JValue)) (s : String)
    (h : dictGet data s = dictGet d2 s) : get_as_float data s = get_as_float d2 s := by
  unfold get_as_float
  rw [h]

lemma mapFieldsAux_congr (data d2 : List (String × JValue))
    (lm : List (String × String)) (todo : List String)
    (hag : ∀ k, (dictGet lm k).isSome → dictGet data k = dictGet d2 k) :
    ∀ packet logs,
      mapFieldsAux data lm todo packet logs = mapFieldsAux d2 lm todo packet logs := by
  induction todo with
  | nil =>
    intro packet logs
    rfl
  | cons vn todo ih =>
    intro packet logs
    by_cases hv : (dictGet lm vn).isSome
    · simp only [mapFieldsAux, if_pos hv]
      rw [get_as_float_congr data d2 vn (hag vn hv)]
      cases get_as_float d2 vn with
      | error u => rfl
      | ok x =>
        obtain ⟨v, lgs⟩ := x
        exact ih _ _
    · simp only [mapFieldsAux, if_neg hv]
      exact ih _ _

/-- Claim C2 counterexample: label map `{temp: outTemp}`, payload
`{"temp":"21.5"}`, mapping time 1000. The yielded record consists of
`usUnits` and `outTemp` only: it carries no timestamp field at all —
no `TIME`/`time`/`dateTime` key and no value equal to the mapping time
— refuting "every yielded record carries a timestamp ... regardless of
the contents of the label map". -/
theorem c2_counterexample :
    processPayload [("temp", "outTemp")] 1000 "\x7b\"temp\":\"21.5\"\x7d" =
      ProcResult.yielded
        [("usUnits", PacketValue.int METRIC),
          ("outTemp", PacketValue.float (mkRat 43 2))] [] ∧
    (∀ kv ∈ [("usUnits", PacketValue.int METRIC),
        ("outTemp", PacketValue.float (mkRat 43 2))],
      kv.1 ≠ "TIME" ∧ kv.1 ≠ "time" ∧ kv.1 ≠ "dateTime" ∧
      kv.2 ≠ PacketValue.int 1000 ∧ kv.2 ≠ PacketValue.float (mkRat 1000 1)) := by
  decide

/-- Claim C2 as amended: line 136 does overwrite the decoded data's
`TIME` entry with the local mapping time (any source-supplied `TIME`
value is discarded), but that timestamp reaches the yielded record
only through the label map: when `TIME` is not a label-map key, the
mapping result is entirely independent of the mapping time, so the
record carries no timestamp. -/
theorem c2_amended (fields : List (String × JValue)) (lm : List (String × String))
    (now now' : Int) (h : (dictGet lm "TIME").isNone = true) :
    dictGet (dictInsert fields "TIME" (JValue.num (now : ℚ))) "TIME" =
      some (JValue.num (now : ℚ)) ∧
    mapFields (dictInsert fields "TIME" (JValue.num (now : ℚ))) lm =
      mapFields (dictInsert fields "TIME" (JValue.num (now' : ℚ))) lm := by
  have h0 : dictGet lm "TIME" = Option.none := Option.isNone_iff_eq_none.mp h
  refine ⟨dictGet_dictInsert_self _ _ _, ?_⟩
  unfold mapFields
  rw [show (dictInsert fields "TIME" (JValue.num (now' : ℚ))).map Prod.fst =
      (dictInsert fields "TIME" (JValue.num (now : ℚ))).map Prod.fst from
    map_fst_dictInsert _ _ _ _]
  apply mapFieldsAux_congr
  intro k hk
  have hkT : "TIME" ≠ k := by
    intro contra
    rw [← contra, h0] at hk
    simp at hk
  rw [dictGet_dictInsert_ne _ _ _ _ hkT, dictGet_dictInsert_ne _ _ _ _ hkT]

/-- Claim C2 witness: the amended statement at label map
`{temp: outTemp}` (no `TIME` key), payload fields `{temp: "21.5"}`,
mapping times 1000 and 2000. -/
theorem c2_witness :
    dictGet
      (dictInsert [("temp", JValue.str "21.5")] "TIME"
        (JValue.num ((1000 : Int) : ℚ))) "TIME" =
      some (JValue.num ((1000 : Int) : ℚ)) ∧
    mapFields
      (dictInsert [("temp", JValue.str "21.5")] "TIME"
        (JValue.num ((1000 : Int) : ℚ))) [("temp", "outTemp")] =
    mapFields
      (dictInsert [("temp", JValue.str "21.5")] "TIME"
        (JValue.num ((2000 : Int) : ℚ))) [("temp", "outTemp")] :=
  c2_amended [("temp", JValue.str "21.5")] [("temp", "outTemp")] 1000 2000
    (by decide)

lemma mapFieldsAux_nil_lm (data : List (String × JValue)) (todo : List String) :
    ∀ packet logs, mapFieldsAux data [] todo packet logs = Except.ok (packet, logs) := by
  induction todo with
  | nil =>
    intro packet logs
    rfl
  | cons vn todo ih =>
    intro packet logs
    simp only [mapFieldsAux, dictGet, Option.isSome_none, Bool.false_eq_true,
      if_false]
    exact ih _ _

/-- Claim C10: every recognized option absent from `stn_dict` gets its
fixed default — host `localhost`, topic `weather`, client id
`wxclient`, poll interval 5.0 seconds, label map `{}` — and with the
empty default label map no payload field is ever forwarded: the mapped
record is exactly `{usUnits: METRIC}` whatever the decoded data. -/
theorem c10_defaults (d : StnDict) (fields : List (String × JValue)) (now : Int)
    (h1 : d.host = Option.none) (h2 : d.topic = Option.none)
    (h3 : d.client = Option.none) (h4 : d.poll_interval = Option.none)
    (h5 : d.label_map = Option.none) :
    (wxMeshInit d).host = "localhost" ∧ (wxMeshInit d).topic = "weather" ∧
    (wxMeshInit d).client_id = "wxclient" ∧ (wxMeshInit d).poll_interval = 5 ∧
    (wxMeshInit d).label_map = [] ∧
    mapFields (dictInsert fields "TIME" (JValue.num (now : ℚ)))
      (wxMeshInit d).label_map =
      Except.ok ([("usUnits", PacketValue.int METRIC)], []) := by
  have hl : (wxMeshInit d).label_map = [] := by simp [wxMeshInit, h5]
  refine ⟨by simp [wxMeshInit, h1], by simp [wxMeshInit, h2],
    by simp [wxMeshInit, h3], by simp [wxMeshInit, h4], hl, ?_⟩
  rw [hl]
  unfold mapFields
  exact mapFieldsAux_nil_lm _ _ _ _

/-- Claim C10 witness: the empty configuration bundle takes every
default, and a decoded message maps to the bare `{usUnits: METRIC}`
record. -/
theorem c10_witness :
    (wxMeshInit
      ⟨Option.none, Option.none, Option.none, Option.none, Option.none,
        Option.none, Option.none⟩).host = "localhost" ∧
    (wxMeshInit
      ⟨Option.none, Option.none, Option.none, Option.none, Option.none,
        Option.none, Option.none⟩).topic = "weather" ∧
    (wxMeshInit
      ⟨Option.none, Option.none, Option.none, Option.none, Option.none,
        Option.none, Option.none⟩).client_id = "wxclient" ∧
    (wxMeshInit
      ⟨Option.none, Option.none, Option.none, Option.none, Option.none,
        Option.none, Option.none⟩).poll_interval = 5 ∧
    (wxMeshInit
      ⟨Option.none, Option.none, Option.none, Option.none, Option.none,
        Option.none, Option.none⟩).label_map = [] ∧
    mapFields (dictInsert [("temp", JValue.str "7")] "TIME"
        (JValue.num ((0 : Int) : ℚ)))
      (wxMeshInit
        ⟨Option.none, Option.none, Option.none, Option.none, Option.none,
          Option.none, Option.none⟩).label_map =
      Except.ok ([("usUnits", PacketValue.int METRIC)], []) :=
  c10_defaults
    ⟨Option.none, Option.none, Option.none, Option.none, Option.none,
      Option.none, Option.none⟩ [("temp", JValue.str "7")] 0
    rfl rfl rfl rfl rfl

end WxMesh
